import Mathlib

/-!
Verification development for the matrix-webhook bridge.

The definitions below are a shallow embedding of the two Python source
files `WebhookServer.py` and `E2EEClient.py`.  Python strings are
modelled as Lean `String`s, with the string primitives the source uses
(`str.split`, `str.strip`, `str.replace`) re-implemented over `List Char`
so that every concrete configuration can be evaluated inside proofs.
Python `dict`s are modelled as insertion-ordered association lists with
overwrite-on-duplicate, matching CPython semantics.  External
collaborators (the matrix transport, the cryptography library, the
JSON/YAML serialisers, the Markdown renderer) are passed in as explicit
function parameters, exactly at the call boundary the source uses them.
-/

namespace MatrixWebhook

/-! ## Python string primitives

`isPyWhitespace` is the character class `str.strip` removes
(space, tab, newline, carriage return, vertical tab, form feed). -/

def isPyWhitespace (c : Char) : Bool :=
  c = ' ' || c = '\t' || c = '\n' || c = '\r' || c = '\x0b' || c = '\x0c'

/-- Python `s.strip()`: remove leading and trailing whitespace. -/
def pyStrip (cs : List Char) : List Char :=
  ((cs.dropWhile isPyWhitespace).reverse.dropWhile isPyWhitespace).reverse

/-- Python `s.replace('\n', ' ')`. -/
def pyReplaceNlBySpace (cs : List Char) : List Char :=
  cs.map (fun c => if c = '\n' then ' ' else c)

/-- Python `s.split(' ')` (one-character separator: empty pieces between
consecutive separators are kept). -/
def splitOnSpaceAux : List Char → List Char → List (List Char)
  | [], acc => [acc.reverse]
  | c :: rest, acc =>
    if c = ' ' then acc.reverse :: splitOnSpaceAux rest []
    else splitOnSpaceAux rest (c :: acc)

def pySplitSpace (cs : List Char) : List (List Char) :=
  splitOnSpaceAux cs []

/-- Python `s.split(',', maxsplit=n)`: split on commas at most `n` times;
once the budget is exhausted the remainder (commas included) is one
final field. -/
def splitCommaAux : List Char → Nat → List Char → List (List Char)
  | [], _, acc => [acc.reverse]
  | c :: rest, n, acc =>
    if c = ',' then
      match n with
      | 0 => splitCommaAux rest 0 (c :: acc)
      | m + 1 => acc.reverse :: splitCommaAux rest m []
    else splitCommaAux rest n (c :: acc)

def pySplitCommaMax (cs : List Char) (maxsplit : Nat) : List (List Char) :=
  splitCommaAux cs maxsplit []

/-! ## TokenRegistry (`WebhookServer._parse_known_tokens`) -/

/-- The value stored per token: `{'room': ..., 'app_name': ...}`. -/
structure TokenEntry where
  room : String
  app_name : String
deriving DecidableEq, Repr

/-- Log lines emitted by the parser (`logging.error` / `logging.critical`),
modelled structurally. -/
inductive ParseLog where
  | emptyConfig
  | malformedEntry (pairs : String)
  | incompleteEntry (pairs : String)
  | noValidTokens
deriving DecidableEq, Repr

/-- CPython `dict` assignment `d[k] = v`: overwrite in place when the key
exists, otherwise append (insertion order preserved). -/
def dictInsert (m : List (String × TokenEntry)) (k : String) (v : TokenEntry) :
    List (String × TokenEntry) :=
  if m.any (fun p => p.1 == k) then
    m.map (fun p => if p.1 == k then (k, v) else p)
  else m ++ [(k, v)]

/-- The branch the loop body of `_parse_known_tokens` takes for a single
whitespace-delimited group: skip silently (blank), log malformed
(fewer than 3 comma fields), log incomplete (some field empty after
trimming), or accept a token entry. -/
inductive GroupOutcome where
  | empty
  | malformed (pairs : String)
  | incomplete (pairs : String)
  | valid (token : String) (entry : TokenEntry)
deriving DecidableEq, Repr

/-- Classify one group exactly as the source's loop body does:
`pairs = raw.strip()`, skip if falsy, `pairs.split(',', maxsplit=2)`
with each part stripped, reject unless exactly 3 nonempty parts. -/
def groupOutcome (raw : List Char) : GroupOutcome :=
  let pairs := pyStrip raw
  if pairs.isEmpty then .empty
  else
    match (pySplitCommaMax pairs 2).map pyStrip with
    | [token, room, app_name] =>
      if token.isEmpty || room.isEmpty || app_name.isEmpty then
        .incomplete (String.mk pairs)
      else .valid (String.mk token) ⟨String.mk room, String.mk app_name⟩
    | _ => .malformed (String.mk pairs)

/-- One iteration of the `for raw in rooms.replace('\n', ' ').split(' ')`
loop of `_parse_known_tokens`, acting on the accumulated (map, logs). -/
def processGroup (st : List (String × TokenEntry) × List ParseLog) (raw : List Char) :
    List (String × TokenEntry) × List ParseLog :=
  match groupOutcome raw with
  | .empty => st
  | .malformed pairs => (st.1, st.2 ++ [ParseLog.malformedEntry pairs])
  | .incomplete pairs => (st.1, st.2 ++ [ParseLog.incompleteEntry pairs])
  | .valid token entry => (dictInsert st.1 token entry, st.2)

/-- `WebhookServer._parse_known_tokens`: returns the token map together
with the log lines it produced. -/
def parse_known_tokens (rooms : String) : List (String × TokenEntry) × List ParseLog :=
  if rooms.isEmpty then ([], [ParseLog.emptyConfig])
  else
    let st := (pySplitSpace (pyReplaceNlBySpace rooms.toList)).foldl processGroup ([], [])
    if st.1.isEmpty then (st.1, st.2 ++ [ParseLog.noValidTokens]) else st

/-- `some (token, entry)` exactly when the group passes the 3-field
nonempty-field rule. -/
def validGroup (raw : List Char) : Option (String × TokenEntry) :=
  match groupOutcome raw with
  | .valid token entry => some (token, entry)
  | _ => none

/-- `WebhookServer.get_known_rooms`: the admin room plus the room of every
registered token entry, as a set. -/
def get_known_rooms (adminRoom : String) (known_tokens : List (String × TokenEntry)) :
    Finset String :=
  known_tokens.foldl (fun s p => insert p.2.room s) {adminRoom}

/-! ## Verification event handling (`E2EEClient.to_device_callback`)

The callback is modelled as a state-and-output transformer.  The state
holds the fields of `E2EEClient` / its `AsyncClient` that the callback
reads or writes: the single `verification_from_device` string set in
`__init__`, the client's `device_id`, and the transport's
`key_verifications` dictionary (transaction id → SAS object).  Calls
into the transport (`to_device`, `accept_key_verification`,
`confirm_short_auth_string`) and `print` logging are recorded as an
output list.  Python exceptions (`KeyError` on a missing dict key) are
modelled with `Except`; the `except BaseException` wrapper of the
source is `to_device_callback` below. -/

/-- The transport's per-transaction SAS object, at the interface the
callback uses: `get_emoji()` and `get_mac()`; `mac = none` models
`get_mac` raising `LocalProtocolError`. -/
structure Sas where
  emoji : String
  mac : Option String
deriving DecidableEq, Repr

/-- `event.source` of an `UnknownToDeviceEvent`: the `type` and `sender`
keys are always present on a delivered event; the `content` sub-dict is
attacker-controlled, so each key the callback reads is optional. -/
structure UnknownSource where
  type : String
  sender : String
  content_transaction_id : Option String
  content_methods : Option (List String)
  content_from_device : Option String
deriving DecidableEq, Repr

/-- The event shapes `to_device_callback` dispatches on. -/
inductive ToDeviceEvent where
  | unknownToDevice (source : UnknownSource)
  | keyVerificationStart (sender transaction_id : String)
      (short_authentication_string : List String)
  | keyVerificationCancel (sender reason : String)
  | keyVerificationKey (transaction_id : String)
  | keyVerificationMac (transaction_id : String)
  | otherEvent
deriving DecidableEq, Repr

structure ClientState where
  verification_from_device : String
  device_id : String
  key_verifications : List (String × Sas)
deriving DecidableEq, Repr

/-- Content of an outgoing `ToDeviceMessage` (`transaction_id` always,
`from_device`/`methods` only on the ready reply). -/
structure ToDeviceMessageContent where
  transaction_id : String
  from_device : Option String
  methods : Option (List String)
deriving DecidableEq, Repr

/-- Transport calls and `print` log lines the callback emits, in order. -/
inductive ClientCall where
  | toDevice (msg_type recipient recipient_device : String)
      (content : ToDeviceMessageContent) (tx_id : Option String)
  | acceptKeyVerification (transaction_id : String)
  | confirmShortAuthString (transaction_id : String)
  | toDeviceMac (mac : String)
  | logUnsupportedMethods (methods : List String)
  | logCancelled (sender reason : String)
  | logEmoji (emoji : String)
  | logMacProtocolError
  | logVerificationSuccess
  | logUnexpectedEvent
  | logException (err : String)
deriving DecidableEq, Repr

/-- Python `d[k]` on a possibly missing key: `KeyError` is modelled as
`Except.error` carrying the key name. -/
def getKey {α : Type} (v : Option α) (k : String) : Except String α :=
  match v with
  | some x => Except.ok x
  | none => Except.error ("KeyError: " ++ k)

/-- The body of `to_device_callback` inside its `try`: may raise. -/
def to_device_callback_inner (st : ClientState) (ev : ToDeviceEvent) :
    Except String (ClientState × List ClientCall) :=
  match ev with
  | .unknownToDevice source => do
    let st_and_calls ←
      if source.type = "m.key.verification.request" then do
        let txn ← getKey source.content_transaction_id "transaction_id"
        let methods ← getKey source.content_methods "methods"
        let from_device ← getKey source.content_from_device "from_device"
        let content : ToDeviceMessageContent := ⟨txn, some st.device_id, some methods⟩
        let message := ClientCall.toDevice "m.key.verification.ready"
          source.sender from_device content (some txn)
        pure ({ st with verification_from_device := from_device }, [message])
      else pure (st, [])
    let st1 := st_and_calls.1
    let calls1 := st_and_calls.2
    if source.type = "m.key.verification.done" then do
      let txn ← getKey source.content_transaction_id "transaction_id"
      let content : ToDeviceMessageContent := ⟨txn, none, none⟩
      let message := ClientCall.toDevice "m.key.verification.done"
        source.sender st1.verification_from_device content (some txn)
      pure (st1, calls1 ++ [message])
    else pure (st1, calls1)
  | .keyVerificationStart _sender txn methods =>
    if "emoji" ∉ methods then
      Except.ok (st, [ClientCall.logUnsupportedMethods methods])
    else
      Except.ok (st, [ClientCall.acceptKeyVerification txn])
  | .keyVerificationCancel sender reason =>
    Except.ok (st, [ClientCall.logCancelled sender reason])
  | .keyVerificationKey txn => do
    let sas ← getKey (st.key_verifications.lookup txn) txn
    Except.ok (st, [ClientCall.logEmoji sas.emoji, ClientCall.confirmShortAuthString txn])
  | .keyVerificationMac txn => do
    let sas ← getKey (st.key_verifications.lookup txn) txn
    match sas.mac with
    | none => Except.ok (st, [ClientCall.logMacProtocolError])
    | some m =>
      Except.ok (st, [ClientCall.toDeviceMac m, ClientCall.logVerificationSuccess])
  | .otherEvent => Except.ok (st, [ClientCall.logUnexpectedEvent])

/-- `E2EEClient.to_device_callback`: the `try ... except BaseException`
wrapper — an exception is printed (logged) and swallowed, the state is
left as it was. -/
def to_device_callback (st : ClientState) (ev : ToDeviceEvent) :
    ClientState × List ClientCall :=
  match to_device_callback_inner st ev with
  | .ok r => r
  | .error e => (st, [ClientCall.logException e])

/-- The sync loop delivering to-device events to the callback in order. -/
def processToDeviceEvents (st : ClientState) :
    List ToDeviceEvent → ClientState × List ClientCall
  | [] => (st, [])
  | ev :: rest =>
    let r1 := to_device_callback st ev
    let r2 := processToDeviceEvents r1.1 rest
    (r2.1, r1.2 ++ r2.2)

/-! ## Credential persistence (`E2EEClient._write_details_to_disk`)

The write is modelled as the sequence of filesystem operations the
source performs, together with a small filesystem semantics (path →
contents map) so that every intermediate state a concurrent reader
could observe is explicit.  `open(path, "w")` truncates the target to
empty; `json.dump` then writes the serialised record (modelled as a
single write, the most favourable chunking for the code). -/

structure Credential where
  homeserver : String
  user_id : String
  device_id : String
  access_token : String
deriving DecidableEq, Repr

def jsonQuote (s : String) : String := "\"" ++ s ++ "\""

/-- The record `json.dump` writes (default separators; escaping of
special characters inside the values is not modelled). -/
def serializeCredential (c : Credential) : String :=
  "\x7b" ++ jsonQuote "homeserver" ++ ": " ++ jsonQuote c.homeserver ++ ", " ++
    jsonQuote "user_id" ++ ": " ++ jsonQuote c.user_id ++ ", " ++
    jsonQuote "device_id" ++ ": " ++ jsonQuote c.device_id ++ ", " ++
    jsonQuote "access_token" ++ ": " ++ jsonQuote c.access_token ++ "\x7d"

inductive FsOp where
  | openTruncate (path : String)
  | writeData (path : String) (data : String)
  | rename (src dst : String)
deriving DecidableEq, Repr

/-- `E2EEClient._write_details_to_disk`: `open(self.CONFIG_FILE, "w")`
followed by `json.dump(record, f)` — directly on the target path. -/
def write_details_to_disk (config_file : String) (c : Credential) : List FsOp :=
  [FsOp.openTruncate config_file, FsOp.writeData config_file (serializeCredential c)]

def fsSet (fs : List (String × String)) (k v : String) : List (String × String) :=
  if fs.any (fun p => p.1 == k) then
    fs.map (fun p => if p.1 == k then (k, v) else p)
  else fs ++ [(k, v)]

def fsGet (fs : List (String × String)) (k : String) : Option String :=
  fs.lookup k

def applyFsOp (fs : List (String × String)) : FsOp → List (String × String)
  | .openTruncate p => fsSet fs p ""
  | .writeData p d => fsSet fs p (((fsGet fs p).getD "") ++ d)
  | .rename src dst =>
    match fsGet fs src with
    | none => fs
    | some v => fsSet (fs.filter (fun p => ¬ p.1 == src)) dst v

/-- All filesystem states visible after each operation of a trace: what
a concurrent reader can observe while the trace runs. -/
def fsStatesAux (fs : List (String × String)) : List FsOp → List (List (String × String))
  | [] => []
  | op :: rest =>
    let fs1 := applyFsOp fs op
    fs1 :: fsStatesAux fs1 rest

/-! ## Image sending (`E2EEClient.send_image`)

`send_image` is modelled as a pure function from its inputs and its
external collaborators to the trace of upload calls it makes and the
message content it sends.  The collaborators are parameters:
`encrypt_attachment` (the nio crypto routine: ciphertext plus key/IV
/hash metadata), the server's upload response (`some content_uri`, or
`none` for an `UploadError`), and the Markdown renderer.  Bytes are
`List Nat`. -/

/-- The slice of a nio `MatrixRoom` the function reads. -/
structure RoomInfo where
  encrypted : Bool
deriving DecidableEq, Repr

/-- Result of `encrypt_attachment(file_bytes)`: ciphertext and the
`iv`/`hashes`/`key` entries embedded into the `file` payload. -/
structure EncryptedAttachment where
  ciphertext : List Nat
  iv : String
  hashes : List (String × String)
  key : List (String × String)
deriving DecidableEq, Repr

/-- One call to `self.client.upload(...)`, as captured at the boundary. -/
structure UploadCall where
  data_bytes : List Nat
  content_type : String
  filename : String
  filesize : Nat
deriving DecidableEq, Repr

/-- The attachment reference inside the sent message content: an
encrypted `file` dict or a plain `url`. -/
inductive ImageRef where
  | encryptedFile (url iv : String) (hashes key : List (String × String)) (v : String)
  | plainUrl (url : String)
deriving DecidableEq, Repr

/-- The `m.image` content dict of the sent room message. -/
structure ImageContent where
  msgtype : String
  body : String
  info_mimetype : String
  info_size : Nat
  ref : ImageRef
  fmt : Option String
  formatted_body : Option String
deriving DecidableEq, Repr

/-- What `send_image` did: the uploads performed and the message sent
(`none` when upload failed and the function returned early). -/
structure SendImageTrace where
  uploads : List UploadCall
  sent : Option ImageContent
deriving DecidableEq, Repr

/-- Python truthiness of an optional string (`None` and `""` falsy). -/
def pyTruthy (o : Option String) : Bool :=
  match o with
  | none => false
  | some s => ¬ s.isEmpty

/-- Lines 335–341 of `E2EEClient.py`: when Markdown is enabled and there
is a caption or a sender prefix, the content gains `format` and
`formatted_body` entries rendered by the external Markdown function. -/
def applyMarkdownFormatting (use_markdown : Bool) (msgPref : String)
    (caption : Option String) (filename : String) (markdown : String → String)
    (content : ImageContent) : ImageContent :=
  if use_markdown && (pyTruthy caption || ¬ msgPref.isEmpty) then
    let body_text := msgPref ++ (if pyTruthy caption then caption.getD filename else filename)
    { content with fmt := some "org.matrix.custom.html",
                   formatted_body := some (markdown body_text) }
  else content

/-- `E2EEClient.send_image`.  `rooms` is `self.client.rooms`;
`is_encrypted = getattr(rooms.get(room), "encrypted", True)` defaults to
`true` when the room is unknown.  In the encrypted branch the ciphertext
is uploaded as `application/octet-stream`; otherwise the original bytes
are uploaded under their declared mimetype and referenced by `url`. -/
def send_image
    (rooms : List (String × RoomInfo))
    (encrypt_attachment : List Nat → EncryptedAttachment)
    (upload_result : Option String)
    (display_app_name use_markdown : Bool)
    (markdown : String → String)
    (file_bytes : List Nat) (filename mimetype room sender : String)
    (caption : Option String) : SendImageTrace :=
  let msgPref := if display_app_name then "**" ++ sender ++ "** says:  \n" else ""
  let room_obj := rooms.lookup room
  let is_encrypted := ((room_obj.map RoomInfo.encrypted).getD true)
  let size := file_bytes.length
  let body := if pyTruthy caption then caption.getD filename else filename
  let finishContent := applyMarkdownFormatting use_markdown msgPref caption filename markdown
  if is_encrypted then
    let enc := encrypt_attachment file_bytes
    let call : UploadCall :=
      ⟨enc.ciphertext, "application/octet-stream", filename, enc.ciphertext.length⟩
    match upload_result with
    | none => ⟨[call], none⟩
    | some mxc =>
      ⟨[call], some (finishContent
        ⟨"m.image", body, mimetype, size,
          ImageRef.encryptedFile mxc enc.iv enc.hashes enc.key "v2", none, none⟩)⟩
  else
    let call : UploadCall := ⟨file_bytes, mimetype, filename, file_bytes.length⟩
    match upload_result with
    | none => ⟨[call], none⟩
    | some mxc =>
      ⟨[call], some (finishContent
        ⟨"m.image", body, mimetype, size, ImageRef.plainUrl mxc, none, none⟩)⟩

/-! ## Webhook delivery pipeline (`WebhookServer._post_hook`)

The handler is modelled as a pure function from the configuration
(environment), the token registry, the external serialisers
(`json.dumps` / `yaml.dump`, passed as parameters) and the request to
the HTTP response plus the ordered list of outward calls (messages
sent, images sent, log lines). -/

/-- Python values as far as the pipeline handles them: the parsed JSON
body or the form-data dict that `dict(await request.post())` yields. -/
inductive PyVal where
  | pystr (s : String)
  | pyint (n : Int)
  | pybool (b : Bool)
  | pylist (xs : List PyVal)
  | pydict (fields : List (String × PyVal))
  | pynone

/-- A multipart file field, at the attributes `_post_hook` reads
(`filename` / `content_type` may be absent, defaulted via `getattr`). -/
structure FileField where
  file_bytes : List Nat
  filename : Option String
  content_type : Option String

/-- One webhook POST request, pre-parsed at the aiohttp boundary:
`json_body = none` models `await request.json()` raising. -/
structure HookRequest where
  token : String
  content_type : String
  body : String
  post_form : List (String × String)
  json_body : Option PyVal
  form_image : Option FileField
  form_file : Option FileField
  form_caption : Option String

/-- The `web.json_response` the handler returns. -/
structure HookResponse where
  status : Nat
  success : Option Bool
  error_msg : Option String
  sent_as : Option String
  resp_filename : Option String
  cors : Bool
deriving DecidableEq, Repr

/-- Outward calls of the handler, in order. -/
inductive HookOutput where
  | sendMessageCall (body : Option String) (room sender : String)
  | sendImageCall (file_bytes : List Nat)
      (filename mimetype room sender : String) (caption : Option String)
  | logTokenMismatch (token : String)
  | logBadFormat (fmt : String)
  | logJsonDecodeError
deriving DecidableEq, Repr

/-- `WebhookServer._format_message`: dispatch to the external
serialisers on the format string; any other format yields Python
`None` (the function falls through without returning). -/
def format_message (json_dumps yaml_dump : PyVal → Bool → String)
    (msg_format : String) (allow_unicode : Bool) (data : PyVal) : Option String :=
  if msg_format = "json" then some (json_dumps data allow_unicode)
  else if msg_format = "yaml" then some (yaml_dump data allow_unicode)
  else none

/-- Python `s.startswith(prefix)`, evaluated structurally. -/
def pyStartsWith (s pre : String) : Bool :=
  pre.toList.isPrefixOf s.toList

/-- `form.get('caption') or None`: an empty caption becomes `None`. -/
def pyOrNone (o : Option String) : Option String :=
  match o with
  | some s => if s.isEmpty then none else some s
  | none => none

def tokenMismatchResponse : HookResponse :=
  ⟨404, none, some "Token mismatch", none, none, false⟩

/-- `WebhookServer._post_hook`. -/
def post_hook (message_format : String) (allow_unicode : Bool)
    (known_tokens : List (String × TokenEntry))
    (json_dumps yaml_dump : PyVal → Bool → String)
    (req : HookRequest) : HookResponse × List HookOutput :=
  if pyStartsWith req.content_type "multipart/" then
    match known_tokens.lookup req.token with
    | none => (tokenMismatchResponse, [])
    | some entry =>
      match req.form_image.orElse (fun _ => req.form_file) with
      | none => (⟨400, none, some "No file field", none, none, false⟩, [])
      | some ff =>
        let filename := ff.filename.getD "upload.bin"
        let mimetype := ff.content_type.getD "application/octet-stream"
        let caption := pyOrNone req.form_caption
        (⟨200, some true, none, some "image", some filename, false⟩,
         [HookOutput.sendImageCall ff.file_bytes filename mimetype
            entry.room entry.app_name caption])
  else
    match known_tokens.lookup req.token with
    | none => (tokenMismatchResponse, [HookOutput.logTokenMismatch req.token])
    | some entry =>
      if message_format ∉ ["raw", "json", "yaml"] then
        (⟨415, none, some "Gateway configured with unknown message format", none, none, false⟩,
         [HookOutput.logBadFormat message_format])
      else if message_format ≠ "raw" then
        let form_data := PyVal.pydict (req.post_form.map (fun p => (p.1, PyVal.pystr p.2)))
        let parsed := match req.json_body with
          | some j => (j, ([] : List HookOutput))
          | none => (form_data, [HookOutput.logJsonDecodeError])
        let formatted :=
          format_message json_dumps yaml_dump message_format allow_unicode parsed.1
        (⟨200, some true, none, none, none, true⟩,
         parsed.2 ++ [HookOutput.sendMessageCall formatted entry.room entry.app_name])
      else
        (⟨200, some true, none, none, none, true⟩,
         [HookOutput.sendMessageCall (some req.body) entry.room entry.app_name])

/-! ### Registry lemmas -/

lemma processGroup_fst (st : List (String × TokenEntry) × List ParseLog) (raw : List Char) :
    (processGroup st raw).1 =
      (validGroup raw).elim st.1 (fun p => dictInsert st.1 p.1 p.2) := by
  cases h : groupOutcome raw <;> simp [processGroup, validGroup, h]

lemma dictInsert_mem_or {m : List (String × TokenEntry)} {k : String} {v : TokenEntry}
    {p : String × TokenEntry} (hp : p ∈ dictInsert m k v) : p ∈ m ∨ p = (k, v) := by
  unfold dictInsert at hp
  by_cases h : (m.any fun q => q.1 == k) = true
  · rw [if_pos h] at hp
    rcases List.mem_map.mp hp with ⟨q, hq, hqe⟩
    by_cases hk : (q.1 == k) = true
    · simp only [hk, if_true] at hqe
      exact Or.inr hqe.symm
    · simp only [hk, if_false] at hqe
      exact Or.inl (hqe ▸ hq)
  · rw [if_neg h] at hp
    rcases List.mem_append.mp hp with h1 | h1
    · exact Or.inl h1
    · exact Or.inr (List.mem_singleton.mp h1)

lemma mem_get_known_rooms (adminRoom : String) (tokens : List (String × TokenEntry))
    (r : String) :
    r ∈ get_known_rooms adminRoom tokens ↔
      r = adminRoom ∨ ∃ p ∈ tokens, (p : String × TokenEntry).2.room = r := by
  unfold get_known_rooms
  suffices h : ∀ (s : Finset String),
      r ∈ tokens.foldl (fun s p => insert p.2.room s) s ↔
        r ∈ s ∨ ∃ p ∈ tokens, (p : String × TokenEntry).2.room = r by
    simpa using h {adminRoom}
  induction tokens with
  | nil => simp
  | cons q rest ih =>
    intro s
    simp only [List.foldl_cons, ih, Finset.mem_insert, List.mem_cons]
    constructor
    · rintro (
        (h | h) | ⟨p, hp, hr⟩)
      · exact Or.inr ⟨q, Or.inl rfl, h.symm⟩
      · exact Or.inl h
      · exact Or.inr ⟨p, Or.inr hp, hr⟩
    · rintro (h | ⟨p, (rfl | hp), hr⟩)
      · exact Or.inl (Or.inr h)
      · exact Or.inl (Or.inl hr.symm)
      · exact Or.inr ⟨p, hp, hr⟩

/-- Every entry in the folded map is either already in the accumulator or
comes from some group that passed the validity rule. -/
lemma foldl_entries_from_validGroup (groups : List (List Char))
    (st : List (String × TokenEntry) × List ParseLog)
    {p : String × TokenEntry} (hp : p ∈ (groups.foldl processGroup st).1) :
    p ∈ st.1 ∨ ∃ raw ∈ groups, validGroup raw = some p := by
  induction groups generalizing st with
  | nil => exact Or.inl hp
  | cons g rest ih =>
    simp only [List.foldl_cons] at hp
    rcases ih (processGroup st g) hp with h | ⟨raw, hraw, hvg⟩
    · rw [processGroup_fst] at h
      rcases hv : validGroup g with _ | entry
      · rw [hv] at h
        exact Or.inl h
      · rw [hv] at h
        rcases dictInsert_mem_or h with h1 | h1
        · exact Or.inl h1
        · exact Or.inr ⟨g, List.mem_cons_self _ _, by rw [hv, h1]⟩
    · exact Or.inr ⟨raw, List.mem_cons_of_mem _ hraw, hvg⟩

lemma parse_known_tokens_entries (cfg : String) {p : String × TokenEntry}
    (hp : p ∈ (parse_known_tokens cfg).1) :
    ∃ raw ∈ pySplitSpace (pyReplaceNlBySpace cfg.toList), validGroup raw = some p := by
  unfold parse_known_tokens at hp
  by_cases h : cfg.isEmpty
  · simp [h] at hp
  · simp only [h, if_false] at hp
    by_cases h2 :
        ((pySplitSpace (pyReplaceNlBySpace cfg.toList)).foldl processGroup ([], [])).1.isEmpty <;>
      simp only [h2, if_true, if_false] at hp <;>
    rcases foldl_entries_from_validGroup _ _ hp with h3 | h3 <;>
      first
        | exact absurd h3 (List.not_mem_nil _)
        | exact h3

lemma groupOutcome_ne_empty (raw : List Char) (he : (pyStrip raw).isEmpty = false) :
    groupOutcome raw ≠ GroupOutcome.empty := by
  unfold groupOutcome
  simp only [he, Bool.false_eq_true, if_false]
  rcases hm : List.map pyStrip (pySplitCommaMax (pyStrip raw) 2) with
      _ | ⟨a, _ | ⟨b, _ | ⟨c, _ | ⟨d, l⟩⟩⟩⟩ <;>
    simp <;> split <;> simp

lemma splitCommaAux_length (cs : List Char) :
    ∀ (n : Nat) (acc : List Char), (splitCommaAux cs n acc).length ≤ n + 1 := by
  induction cs with
  | nil =>
    intro n acc
    simp [splitCommaAux]
  | cons c rest ih =>
    intro n acc
    unfold splitCommaAux
    by_cases h : c = ','
    · rw [if_pos h]
      cases n with
      | zero => exact ih 0 _
      | succ m =>
        simpa using Nat.succ_le_succ (ih m [])
    · rw [if_neg h]
      exact ih n _

/-! ## Claim theorems: token registry -/

/-- C7 counterexample: on the spec's own example input
`"tok1,roomA,App One tok2,roomB,App Two"` (whose app names contain a
space), the whitespace-first split breaks each app name: the parsed map
does have size 2 with the right rooms, but both entries carry
`app_name = "App"`, not `"App One"` / `"App Two"` as the claim demands. -/
theorem c7_parse_counterexample :
    (parse_known_tokens "tok1,roomA,App One tok2,roomB,App Two").1 =
      [("tok1", ⟨"roomA", "App"⟩), ("tok2", ⟨"roomB", "App"⟩)] ∧
    TokenEntry.mk "roomA" "App" ≠ TokenEntry.mk "roomA" "App One" := by
  decide

/-- C7 (amended): `_parse_known_tokens` splits the configuration on
spaces/newlines into groups, splits each group into at most 3
comma-separated fields, skips with a logged warning (without aborting
the remaining groups) every group yielding fewer than 3 fields or any
field empty after trimming, and for well-formed inputs whose fields are
whitespace-free, such as `"tok1,roomA,AppOne tok2,roomB,AppTwo"`, yields
a mapping of size 2 with the correct room and app name per token,
identically for space and newline separators.  (An app name containing
a space, as in the spec's example, is split across groups and comes out
truncated.) -/
theorem c7_parse_amended :
    (∀ st raw, (processGroup st raw).1 =
        (validGroup raw).elim st.1 (fun p => dictInsert st.1 p.1 p.2)) ∧
    (∀ st raw, validGroup raw = none → (pyStrip raw).isEmpty = false →
        ∃ w, processGroup st raw = (st.1, st.2 ++ [w])) ∧
    (∀ cs, (pySplitCommaMax cs 2).length ≤ 3) ∧
    (parse_known_tokens "tok1,roomA,AppOne tok2,roomB,AppTwo").1 =
      [("tok1", ⟨"roomA", "AppOne"⟩), ("tok2", ⟨"roomB", "AppTwo"⟩)] ∧
    parse_known_tokens "tok1,roomA,AppOne\ntok2,roomB,AppTwo" =
      parse_known_tokens "tok1,roomA,AppOne tok2,roomB,AppTwo" := by
  refine ⟨processGroup_fst, ?_, fun cs => splitCommaAux_length cs 2 [], by decide, by decide⟩
  intro st raw hv he
  unfold validGroup at hv
  unfold processGroup
  cases h : groupOutcome raw with
  | empty => exact absurd h (groupOutcome_ne_empty raw he)
  | malformed pairs => exact ⟨ParseLog.malformedEntry pairs, rfl⟩
  | incomplete pairs => exact ⟨ParseLog.incompleteEntry pairs, rfl⟩
  | valid token entry =>
    rw [h] at hv
    simp at hv

/-- C7 witness: the amended skip clause at a concrete malformed group
(`"x,y"` has only two fields): the map is unchanged and one warning is
appended. -/
theorem c7_parse_witness :
    ∃ w, processGroup ([], []) ("x,y".toList) =
      (([] : List (String × TokenEntry)), ([] : List ParseLog) ++ [w]) :=
  c7_parse_amended.2.1 ([], []) ("x,y".toList) (by decide) (by decide)

/-- C8: for every configuration string, `parse_known_tokens` followed by
`get_known_rooms` returns exactly the admin room unioned with the rooms
of the parsed entries, and every parsed entry comes from a group that
passed the 3-field nonempty rule — so rooms of rejected groups never
appear. -/
theorem c8_known_rooms_roundtrip (cfg adminRoom : String) :
    (∀ r, r ∈ get_known_rooms adminRoom (parse_known_tokens cfg).1 ↔
        r = adminRoom ∨
          ∃ p ∈ (parse_known_tokens cfg).1, (p : String × TokenEntry).2.room = r) ∧
    (∀ p ∈ (parse_known_tokens cfg).1,
        ∃ raw ∈ pySplitSpace (pyReplaceNlBySpace cfg.toList), validGroup raw = some p) :=
  ⟨fun r => mem_get_known_rooms adminRoom _ r, fun _ hp => parse_known_tokens_entries cfg hp⟩

/-- C8 witness: at the concrete configuration `"tok,roomZ,App"` the room
`roomZ` is in the join set and its entry comes from the (only) valid
group. -/
theorem c8_known_rooms_witness :
    (("roomZ" : String) ∈ get_known_rooms "adm" (parse_known_tokens "tok,roomZ,App").1) ∧
    (∃ raw ∈ pySplitSpace (pyReplaceNlBySpace ("tok,roomZ,App" : String).toList),
        validGroup raw = some ("tok", ⟨"roomZ", "App"⟩)) := by
  refine ⟨((c8_known_rooms_roundtrip "tok,roomZ,App" "adm").1 "roomZ").mpr ?_,
    (c8_known_rooms_roundtrip "tok,roomZ,App" "adm").2 ("tok", ⟨"roomZ", "App"⟩) (by decide)⟩
  exact Or.inr ⟨("tok", ⟨"roomZ", "App"⟩), by decide, rfl⟩

lemma lookup_fsSet (fs : List (String × String)) (k v : String) :
    (fsSet fs k v).lookup k = some v := by
  unfold fsSet
  by_cases h : (fs.any fun p => p.1 == k) = true
  · rw [if_pos h]
    induction fs with
    | nil => simp at h
    | cons p rest ih =>
      obtain ⟨pk, pv⟩ := p
      rw [List.map_cons]
      by_cases hk : (pk == k) = true
      · rw [if_pos hk]
        simp [List.lookup]
      · rw [if_neg hk]
        have h2 : (rest.any fun p => p.1 == k) = true := by
          rcases List.any_eq_true.mp h with ⟨q, hq, hqk⟩
          rcases List.mem_cons.mp hq with rfl | hq2
          · exact absurd hqk hk
          · exact List.any_eq_true.mpr ⟨q, hq2, hqk⟩
        have hne : (k == pk) = false := by
          rw [Bool.eq_false_iff]
          intro hc
          rw [beq_iff_eq] at hc
          exact hk (by rw [beq_iff_eq]; exact hc.symm)
        rw [List.lookup, hne]
        exact ih h2
  · rw [if_neg h]
    induction fs with
    | nil => simp [List.lookup]
    | cons p rest ih =>
      obtain ⟨pk, pv⟩ := p
      have hk : ¬ ((pk, pv).1 == k) = true := by
        intro hc
        exact h (List.any_eq_true.mpr ⟨(pk, pv), List.mem_cons_self _ _, hc⟩)
      have h2 : ¬ (rest.any fun p => p.1 == k) = true := by
        intro hc
        rcases List.any_eq_true.mp hc with ⟨q, hq, hqk⟩
        exact h (List.any_eq_true.mpr ⟨q, List.mem_cons_of_mem _ hq, hqk⟩)
      have hne : (k == pk) = false := by
        rw [Bool.eq_false_iff]
        intro hc
        rw [beq_iff_eq] at hc
        exact hk (by rw [beq_iff_eq]; exact hc.symm)
      rw [List.cons_append, List.lookup, hne]
      exact ih h2

lemma fsGet_fsSet (fs : List (String × String)) (k v : String) :
    fsGet (fsSet fs k v) k = some v :=
  lookup_fsSet fs k v

lemma serializeCredential_ne_empty (c : Credential) : serializeCredential c ≠ "" := by
  intro h
  have hlen := congrArg String.length h
  simp only [serializeCredential, jsonQuote, String.length_append] at hlen
  simp only [String.length_empty] at hlen
  have hx : ("\x7d" : String).length = 1 := by decide
  omega

/-! ## Claim theorems: verification event handling -/

/-- C1 counterexample: two interleaved transactions `T1` (peer device
`DEV1`) and `T2` (peer device `DEV2`).  Processing `T1`'s
verification-done event reads the shared `verification_from_device`
field last written by `T2`'s request: the done reply for `T1` is
addressed to `DEV2`, not to the `DEV1` recorded on `T1`'s own request,
so per-transaction state is not independent. -/
theorem c1_transaction_counterexample :
    (processToDeviceEvents ⟨"", "BRIDGE", []⟩
      [ToDeviceEvent.unknownToDevice
          ⟨"m.key.verification.request", "@alice:hs", some "T1", some ["m.sas.v1"], some "DEV1"⟩,
       ToDeviceEvent.unknownToDevice
          ⟨"m.key.verification.request", "@bob:hs", some "T2", some ["m.sas.v1"], some "DEV2"⟩,
       ToDeviceEvent.unknownToDevice
          ⟨"m.key.verification.done", "@alice:hs", some "T1", none, none⟩]).2 =
      [ClientCall.toDevice "m.key.verification.ready" "@alice:hs" "DEV1"
          ⟨"T1", some "BRIDGE", some ["m.sas.v1"]⟩ (some "T1"),
       ClientCall.toDevice "m.key.verification.ready" "@bob:hs" "DEV2"
          ⟨"T2", some "BRIDGE", some ["m.sas.v1"]⟩ (some "T2"),
       ClientCall.toDevice "m.key.verification.done" "@alice:hs" "DEV2"
          ⟨"T1", none, none⟩ (some "T1")] ∧
    ("DEV2" : String) ≠ "DEV1" := by
  decide

/-- C1 (amended): the machine keeps a single shared peer-device register
rather than per-transaction state: every verification-request, whatever
its transaction id, overwrites `verification_from_device`, and a
verification-done reply is addressed to the device most recently
recorded there, whatever transaction the done event belongs to.  The
per-transaction `key_verifications` lookups of the transport are the
only transaction-keyed state. -/
theorem c1_shared_peer_device_amended :
    (∀ (st : ClientState) (source : UnknownSource) (txn : String),
        source.type = "m.key.verification.done" →
        source.content_transaction_id = some txn →
        to_device_callback st (ToDeviceEvent.unknownToDevice source) =
          (st, [ClientCall.toDevice "m.key.verification.done" source.sender
                  st.verification_from_device ⟨txn, none, none⟩ (some txn)])) ∧
    (∀ (st : ClientState) (source : UnknownSource) (txn fd : String)
        (methods : List String),
        source.type = "m.key.verification.request" →
        source.content_transaction_id = some txn →
        source.content_methods = some methods →
        source.content_from_device = some fd →
        (to_device_callback st
            (ToDeviceEvent.unknownToDevice source)).1.verification_from_device = fd) := by
  constructor
  · rintro st ⟨ty, sender, ctxn, cm, cfd⟩ txn hty htxn
    simp only at hty htxn
    subst hty; subst htxn
    simp [to_device_callback, to_device_callback_inner, getKey]
  · rintro st ⟨ty, sender, ctxn, cm, cfd⟩ txn fd methods hty htxn hm hfd
    simp only at hty htxn hm hfd
    subst hty; subst htxn; subst hm; subst hfd
    rfl

/-- C1 witness: the amended behaviour at concrete inputs — a done reply
goes to the currently recorded device `DEVX`, and a request for `T7`
overwrites the register with its `from_device`. -/
theorem c1_shared_peer_device_witness :
    to_device_callback ⟨"DEVX", "BRIDGE", []⟩
        (ToDeviceEvent.unknownToDevice
          ⟨"m.key.verification.done", "@a:hs", some "T1", none, none⟩) =
      (⟨"DEVX", "BRIDGE", []⟩,
        [ClientCall.toDevice "m.key.verification.done" "@a:hs" "DEVX"
          ⟨"T1", none, none⟩ (some "T1")]) ∧
    (to_device_callback ⟨"DEVX", "BRIDGE", []⟩
        (ToDeviceEvent.unknownToDevice
          ⟨"m.key.verification.request", "@b:hs", some "T7", some ["m.sas.v1"],
            some "DEV7"⟩)).1.verification_from_device = "DEV7" :=
  ⟨c1_shared_peer_device_amended.1 _ _ _ rfl rfl,
   c1_shared_peer_device_amended.2 _ _ _ _ _ rfl rfl rfl rfl⟩

/-- C4: any exception raised while handling one to-device event (for
example a `KeyError` on a malformed or adversarial event) is caught by
the `except BaseException` wrapper, logged, and does not propagate: the
state is unchanged and the sync loop goes on to process the remaining
events. -/
theorem c4_callback_exception_isolation :
    (∀ (st : ClientState) (ev : ToDeviceEvent) (e : String),
        to_device_callback_inner st ev = Except.error e →
        to_device_callback st ev = (st, [ClientCall.logException e])) ∧
    (∀ (st : ClientState) (ev : ToDeviceEvent) (rest : List ToDeviceEvent) (e : String),
        to_device_callback_inner st ev = Except.error e →
        processToDeviceEvents st (ev :: rest) =
          ((processToDeviceEvents st rest).1,
            ClientCall.logException e :: (processToDeviceEvents st rest).2)) := by
  have h1 : ∀ (st : ClientState) (ev : ToDeviceEvent) (e : String),
      to_device_callback_inner st ev = Except.error e →
      to_device_callback st ev = (st, [ClientCall.logException e]) := by
    intro st ev e h
    unfold to_device_callback
    rw [h]
  refine ⟨h1, ?_⟩
  intro st ev rest e h
  have hstep : processToDeviceEvents st (ev :: rest) =
      (let r1 := to_device_callback st ev
       let r2 := processToDeviceEvents r1.1 rest
       (r2.1, r1.2 ++ r2.2)) := rfl
  rw [hstep, h1 st ev e h]
  rfl

/-- C4 witness: a key event for an unknown transaction raises `KeyError`
inside the handler; the callback swallows it and the loop still
processes the following event. -/
theorem c4_callback_exception_witness :
    to_device_callback ⟨"", "BRIDGE", []⟩ (ToDeviceEvent.keyVerificationKey "T9") =
      (⟨"", "BRIDGE", []⟩, [ClientCall.logException "KeyError: T9"]) ∧
    processToDeviceEvents ⟨"", "BRIDGE", []⟩
        [ToDeviceEvent.keyVerificationKey "T9", ToDeviceEvent.otherEvent] =
      ((processToDeviceEvents ⟨"", "BRIDGE", []⟩ [ToDeviceEvent.otherEvent]).1,
        ClientCall.logException "KeyError: T9" ::
          (processToDeviceEvents ⟨"", "BRIDGE", []⟩ [ToDeviceEvent.otherEvent]).2) :=
  ⟨c4_callback_exception_isolation.1 _ _ _ rfl,
   c4_callback_exception_isolation.2 _ _ _ _ rfl⟩

/-- C9: a verification-start whose offered short-authentication-string
methods do not include "emoji" is logged and abandoned: the handler
raises no error, changes no state, and never asks the transport to
accept — observably distinct from the accepted transition produced when
"emoji" is offered. -/
theorem c9_start_without_emoji (st : ClientState) (sender txn : String)
    (methods : List String) (h : "emoji" ∉ methods) :
    to_device_callback_inner st (ToDeviceEvent.keyVerificationStart sender txn methods) =
      Except.ok (st, [ClientCall.logUnsupportedMethods methods]) ∧
    to_device_callback st (ToDeviceEvent.keyVerificationStart sender txn methods) =
      (st, [ClientCall.logUnsupportedMethods methods]) ∧
    (∀ t, ClientCall.acceptKeyVerification t ∉
        (to_device_callback st (ToDeviceEvent.keyVerificationStart sender txn methods)).2) ∧
    to_device_callback st
        (ToDeviceEvent.keyVerificationStart sender txn ("emoji" :: methods)) =
      (st, [ClientCall.acceptKeyVerification txn]) ∧
    (to_device_callback st (ToDeviceEvent.keyVerificationStart sender txn methods)).2 ≠
      (to_device_callback st
        (ToDeviceEvent.keyVerificationStart sender txn ("emoji" :: methods))).2 := by
  have hinner :
      to_device_callback_inner st (ToDeviceEvent.keyVerificationStart sender txn methods) =
        Except.ok (st, [ClientCall.logUnsupportedMethods methods]) := by
    simp [to_device_callback_inner, h]
  have hcb :
      to_device_callback st (ToDeviceEvent.keyVerificationStart sender txn methods) =
        (st, [ClientCall.logUnsupportedMethods methods]) := by
    unfold to_device_callback
    rw [hinner]
  have hacc :
      to_device_callback st
          (ToDeviceEvent.keyVerificationStart sender txn ("emoji" :: methods)) =
        (st, [ClientCall.acceptKeyVerification txn]) := by
    simp [to_device_callback, to_device_callback_inner]
  refine ⟨hinner, hcb, ?_, hacc, ?_⟩
  · intro t
    rw [hcb]
    simp
  · rw [hcb, hacc]
    simp

/-- C9 witness: at the concrete offered methods `["decimal"]` the start
event is abandoned with no acceptance, while `["emoji", "decimal"]`
yields the acceptance call. -/
theorem c9_start_without_emoji_witness :
    to_device_callback ⟨"", "BRIDGE", []⟩
        (ToDeviceEvent.keyVerificationStart "@a:hs" "T1" ["decimal"]) =
      (⟨"", "BRIDGE", []⟩, [ClientCall.logUnsupportedMethods ["decimal"]]) ∧
    to_device_callback ⟨"", "BRIDGE", []⟩
        (ToDeviceEvent.keyVerificationStart "@a:hs" "T1" ["emoji", "decimal"]) =
      (⟨"", "BRIDGE", []⟩, [ClientCall.acceptKeyVerification "T1"]) :=
  ⟨(c9_start_without_emoji ⟨"", "BRIDGE", []⟩ "@a:hs" "T1" ["decimal"] (by decide)).2.1,
   (c9_start_without_emoji ⟨"", "BRIDGE", []⟩ "@a:hs" "T1" ["decimal"] (by decide)).2.2.2.1⟩

/-! ## Claim theorems: credential persistence -/

/-- C3 counterexample: `_write_details_to_disk` at a concrete credential
opens the target credentials file itself in write mode (truncating it)
and then writes the record — there is no temp file and no rename in the
trace — and the intermediate filesystem state visible after the
truncation holds an empty credentials file, which is not the full
record.  So the write is not atomic: a concurrent reader can observe a
partial (empty) credentials file. -/
theorem c3_write_counterexample :
    write_details_to_disk "/data/credentials.json"
        ⟨"https://hs", "@bot:hs", "DEVICEABCD", "secret"⟩ =
      [FsOp.openTruncate "/data/credentials.json",
       FsOp.writeData "/data/credentials.json"
         (serializeCredential ⟨"https://hs", "@bot:hs", "DEVICEABCD", "secret"⟩)] ∧
    fsStatesAux []
        (write_details_to_disk "/data/credentials.json"
          ⟨"https://hs", "@bot:hs", "DEVICEABCD", "secret"⟩) =
      [[("/data/credentials.json", "")],
       [("/data/credentials.json",
          serializeCredential ⟨"https://hs", "@bot:hs", "DEVICEABCD", "secret"⟩)]] ∧
    serializeCredential ⟨"https://hs", "@bot:hs", "DEVICEABCD", "secret"⟩ ≠ "" := by
  decide

/-- C3 (amended): `_write_details_to_disk` writes the credential record
by opening the target file directly in write mode — truncating it in
place — and then writing the serialised record; no
write-to-temp-then-rename is used.  Between the truncation and the
completed write a concurrent reader observes the credentials file with
empty (partial) content, different from the nonempty full record; only
after the final write does the file hold the full record. -/
theorem c3_write_direct_truncation (config_file : String) (c : Credential)
    (fs : List (String × String)) :
    write_details_to_disk config_file c =
      [FsOp.openTruncate config_file,
       FsOp.writeData config_file (serializeCredential c)] ∧
    fsStatesAux fs (write_details_to_disk config_file c) =
      [applyFsOp fs (FsOp.openTruncate config_file),
       applyFsOp (applyFsOp fs (FsOp.openTruncate config_file))
         (FsOp.writeData config_file (serializeCredential c))] ∧
    fsGet (applyFsOp fs (FsOp.openTruncate config_file)) config_file = some "" ∧
    serializeCredential c ≠ "" ∧
    fsGet (applyFsOp (applyFsOp fs (FsOp.openTruncate config_file))
        (FsOp.writeData config_file (serializeCredential c))) config_file =
      some (serializeCredential c) := by
  refine ⟨rfl, rfl, fsGet_fsSet fs config_file "", serializeCredential_ne_empty c, ?_⟩
  show fsGet (fsSet (fsSet fs config_file "") config_file
      (((fsGet (fsSet fs config_file "") config_file).getD "") ++ serializeCredential c))
      config_file = some (serializeCredential c)
  have h0 : ((fsGet (fsSet fs config_file "") config_file).getD "") = "" := by
    rw [fsGet_fsSet]
    rfl
  rw [h0, fsGet_fsSet]
  have hemp : ("" : String) ++ serializeCredential c = serializeCredential c := by
    have hd : (("" : String) ++ serializeCredential c).data = (serializeCredential c).data := by
      simp
    exact congrArg String.mk hd
  rw [hemp]


/-! ## Claim theorems: image sending -/

lemma applyMarkdownFormatting_ref (um : Bool) (pref : String) (cap : Option String)
    (fn : String) (md : String → String) (content : ImageContent) :
    (applyMarkdownFormatting um pref cap fn md content).ref = content.ref := by
  unfold applyMarkdownFormatting
  split
  · rfl
  · rfl

/-- C2: when the destination room is encrypted the uploaded bytes are
the client-side ciphertext produced by `encrypt_attachment` (uploaded as
`application/octet-stream`), and the sent content references an
encrypted `file` payload carrying the upload url together with the
attachment's iv, hashes and key; when the room is not encrypted the
original bytes are uploaded unchanged under their own mimetype and the
content carries a plain `url`. -/
theorem c2_send_image_encryption
    (rooms : List (String × RoomInfo))
    (encrypt_attachment : List Nat → EncryptedAttachment)
    (uri : String) (display_app_name use_markdown : Bool)
    (markdown : String → String)
    (file_bytes : List Nat) (filename mimetype room sender : String)
    (caption : Option String) :
    (((rooms.lookup room).map RoomInfo.encrypted).getD true = true →
      (send_image rooms encrypt_attachment (some uri) display_app_name use_markdown
          markdown file_bytes filename mimetype room sender caption).uploads =
        [⟨(encrypt_attachment file_bytes).ciphertext, "application/octet-stream",
          filename, (encrypt_attachment file_bytes).ciphertext.length⟩] ∧
      ∃ content,
        (send_image rooms encrypt_attachment (some uri) display_app_name use_markdown
            markdown file_bytes filename mimetype room sender caption).sent =
          some content ∧
        content.ref = ImageRef.encryptedFile uri (encrypt_attachment file_bytes).iv
          (encrypt_attachment file_bytes).hashes (encrypt_attachment file_bytes).key "v2") ∧
    (((rooms.lookup room).map RoomInfo.encrypted).getD true = false →
      (send_image rooms encrypt_attachment (some uri) display_app_name use_markdown
          markdown file_bytes filename mimetype room sender caption).uploads =
        [⟨file_bytes, mimetype, filename, file_bytes.length⟩] ∧
      ∃ content,
        (send_image rooms encrypt_attachment (some uri) display_app_name use_markdown
            markdown file_bytes filename mimetype room sender caption).sent =
          some content ∧
        content.ref = ImageRef.plainUrl uri) := by
  constructor
  · intro h
    simp only [send_image, h, if_true]
    exact ⟨trivial, _, rfl, applyMarkdownFormatting_ref _ _ _ _ _ _⟩
  · intro h
    simp only [send_image, h, Bool.false_eq_true, if_false]
    exact ⟨trivial, _, rfl, applyMarkdownFormatting_ref _ _ _ _ _ _⟩

/-- C2 witness: a concrete encrypted room and a concrete plain room,
with a concrete encryption function, exercising both halves. -/
theorem c2_send_image_witness :
    (send_image [("!enc:hs", ⟨true⟩)] (fun bs => ⟨bs ++ [0], "iv0", [("sha256", "h0")], [("k", "v")]⟩)
        (some "mxc://hs/abc") false false (fun s => s)
        [9, 8] "a.png" "image/png" "!enc:hs" "App" none).uploads =
      [⟨[9, 8, 0], "application/octet-stream", "a.png", 3⟩] ∧
    (send_image [("!plain:hs", ⟨false⟩)] (fun bs => ⟨bs ++ [0], "iv0", [("sha256", "h0")], [("k", "v")]⟩)
        (some "mxc://hs/abc") false false (fun s => s)
        [9, 8] "a.png" "image/png" "!plain:hs" "App" none).uploads =
      [⟨[9, 8], "image/png", "a.png", 2⟩] := by
  refine ⟨?_, ?_⟩
  · exact (c2_send_image_encryption [("!enc:hs", ⟨true⟩)]
      (fun bs => ⟨bs ++ [0], "iv0", [("sha256", "h0")], [("k", "v")]⟩) "mxc://hs/abc"
      false false (fun s => s) [9, 8] "a.png" "image/png" "!enc:hs" "App" none).1 (by decide) |>.1
  · exact (c2_send_image_encryption [("!plain:hs", ⟨false⟩)]
      (fun bs => ⟨bs ++ [0], "iv0", [("sha256", "h0")], [("k", "v")]⟩) "mxc://hs/abc"
      false false (fun s => s) [9, 8] "a.png" "image/png" "!plain:hs" "App" none).2 (by decide) |>.1


/-- C10: a `send_image` whose destination room id is absent from the
client's room map treats the room as encrypted (`getattr(None,
"encrypted", True)` defaults to `true`): the ciphertext is uploaded and
the content carries an encrypted `file` payload.  Conversely, a plain
`url` payload is only ever produced when the room is known and its
`encrypted` flag is `false`. -/
theorem c10_unknown_room_defaults_encrypted
    (rooms : List (String × RoomInfo))
    (encrypt_attachment : List Nat → EncryptedAttachment)
    (upload_result : Option String) (display_app_name use_markdown : Bool)
    (markdown : String → String)
    (file_bytes : List Nat) (filename mimetype room sender : String)
    (caption : Option String) :
    (rooms.lookup room = none →
      (send_image rooms encrypt_attachment upload_result display_app_name use_markdown
          markdown file_bytes filename mimetype room sender caption).uploads =
        [⟨(encrypt_attachment file_bytes).ciphertext, "application/octet-stream",
          filename, (encrypt_attachment file_bytes).ciphertext.length⟩] ∧
      ∀ uri, upload_result = some uri →
        ∃ content,
          (send_image rooms encrypt_attachment upload_result display_app_name use_markdown
              markdown file_bytes filename mimetype room sender caption).sent =
            some content ∧
          content.ref = ImageRef.encryptedFile uri (encrypt_attachment file_bytes).iv
            (encrypt_attachment file_bytes).hashes (encrypt_attachment file_bytes).key "v2") ∧
    (∀ content uri,
      (send_image rooms encrypt_attachment upload_result display_app_name use_markdown
          markdown file_bytes filename mimetype room sender caption).sent = some content →
      content.ref = ImageRef.plainUrl uri →
      ∃ info, rooms.lookup room = some info ∧ info.encrypted = false) := by
  constructor
  · intro h
    have henc : ((rooms.lookup room).map RoomInfo.encrypted).getD true = true := by
      rw [h]
      rfl
    constructor
    · simp only [send_image, henc, if_true]
      cases upload_result <;> rfl
    · intro uri hu
      subst hu
      simp only [send_image, henc, if_true]
      exact ⟨_, rfl, applyMarkdownFormatting_ref _ _ _ _ _ _⟩
  · intro content uri hsent href
    by_cases henc : ((rooms.lookup room).map RoomInfo.encrypted).getD true = true
    · exfalso
      cases hu : upload_result with
      | none =>
        rw [hu] at hsent
        simp only [send_image, henc, if_true, hu] at hsent
        exact Option.noConfusion hsent
      | some mxc =>
        rw [hu] at hsent
        simp only [send_image, henc, if_true, hu] at hsent
        have hc := (Option.some.inj hsent).symm
        have hrefc : content.ref = ImageRef.encryptedFile mxc (encrypt_attachment file_bytes).iv
            (encrypt_attachment file_bytes).hashes (encrypt_attachment file_bytes).key "v2" := by
          rw [hc]
          exact applyMarkdownFormatting_ref _ _ _ _ _ _
        rw [href] at hrefc
        exact ImageRef.noConfusion hrefc
    · have henc2 : ((rooms.lookup room).map RoomInfo.encrypted).getD true = false :=
        Bool.eq_false_iff.mpr henc
      cases hlook : rooms.lookup room with
      | none =>
        exfalso
        rw [hlook] at henc2
        simp at henc2
      | some info =>
        refine ⟨info, rfl, ?_⟩
        rw [hlook] at henc2
        simpa using henc2

/-- C10 witness: with the room map not containing the destination room,
the ciphertext is uploaded; and the plain branch is only reachable for
a known unencrypted room. -/
theorem c10_unknown_room_witness :
    (send_image [] (fun bs => ⟨bs ++ [0], "iv0", [("sha256", "h0")], [("k", "v")]⟩)
        (some "mxc://hs/abc") false false (fun s => s)
        [7] "b.png" "image/png" "!nosuch:hs" "App" none).uploads =
      [⟨[7, 0], "application/octet-stream", "b.png", 2⟩] ∧
    ∃ content,
      (send_image [] (fun bs => ⟨bs ++ [0], "iv0", [("sha256", "h0")], [("k", "v")]⟩)
          (some "mxc://hs/abc") false false (fun s => s)
          [7] "b.png" "image/png" "!nosuch:hs" "App" none).sent = some content ∧
      content.ref = ImageRef.encryptedFile "mxc://hs/abc" "iv0" [("sha256", "h0")]
        [("k", "v")] "v2" := by
  have h := (c10_unknown_room_defaults_encrypted []
    (fun bs => ⟨bs ++ [0], "iv0", [("sha256", "h0")], [("k", "v")]⟩)
    (some "mxc://hs/abc") false false (fun s => s)
    [7] "b.png" "image/png" "!nosuch:hs" "App" none).1 rfl
  exact ⟨h.1, h.2 "mxc://hs/abc" rfl⟩


/-! ## Claim theorems: webhook delivery pipeline -/

/-- C5: a webhook POST whose token is not registered always yields the
structured token-mismatch error with HTTP status 404 — in the multipart
branch and in the ordinary branch alike, and in the latter before the
configured message format (even an invalid one) is ever examined; no
message or image send is attempted. -/
theorem c5_unregistered_token_mismatch (message_format : String) (allow_unicode : Bool)
    (known_tokens : List (String × TokenEntry))
    (json_dumps yaml_dump : PyVal → Bool → String) (req : HookRequest)
    (h : known_tokens.lookup req.token = none) :
    (post_hook message_format allow_unicode known_tokens json_dumps yaml_dump req).1 =
      tokenMismatchResponse ∧
    tokenMismatchResponse.status = 404 ∧
    tokenMismatchResponse.error_msg = some "Token mismatch" ∧
    ((post_hook message_format allow_unicode known_tokens json_dumps yaml_dump req).2 = [] ∨
      (post_hook message_format allow_unicode known_tokens json_dumps yaml_dump req).2 =
        [HookOutput.logTokenMismatch req.token]) := by
  refine ⟨?_, rfl, rfl, ?_⟩ <;>
    unfold post_hook <;>
    by_cases hm : pyStartsWith req.content_type "multipart/" = true <;>
    simp [hm, h]

/-- C5 witness: an unregistered token `zzz` with an invalid configured
format `bogus` still gets the 404 token-mismatch response. -/
theorem c5_unregistered_token_witness :
    (post_hook "bogus" false [("tok", ⟨"!r:hs", "App"⟩)] (fun _ _ => "J") (fun _ _ => "Y")
        ⟨"zzz", "application/json", "x", [], none, none, none, none⟩).1 =
      tokenMismatchResponse ∧
    tokenMismatchResponse.status = 404 := by
  have h := c5_unregistered_token_mismatch "bogus" false [("tok", ⟨"!r:hs", "App"⟩)]
    (fun _ _ => "J") (fun _ _ => "Y")
    ⟨"zzz", "application/json", "x", [], none, none, none, none⟩ rfl
  exact ⟨h.1, h.2.1⟩

/-- C6: a non-multipart request with a registered token and configured
format json or yaml whose body fails to parse as JSON is not aborted:
the decode error is logged, the form-data structure that is available
is serialised in the requested format and sent to the token's room, and
the handler still returns the success acknowledgment. -/
theorem c6_json_parse_failure_best_effort (message_format : String) (allow_unicode : Bool)
    (known_tokens : List (String × TokenEntry))
    (json_dumps yaml_dump : PyVal → Bool → String) (req : HookRequest)
    (entry : TokenEntry)
    (hm : pyStartsWith req.content_type "multipart/" = false)
    (htok : known_tokens.lookup req.token = some entry)
    (hfmt : message_format = "json" ∨ message_format = "yaml")
    (hjson : req.json_body = none) :
    (post_hook message_format allow_unicode known_tokens json_dumps yaml_dump req).1 =
      ⟨200, some true, none, none, none, true⟩ ∧
    (post_hook message_format allow_unicode known_tokens json_dumps yaml_dump req).2 =
      [HookOutput.logJsonDecodeError,
       HookOutput.sendMessageCall
         (format_message json_dumps yaml_dump message_format allow_unicode
           (PyVal.pydict (req.post_form.map (fun p => (p.1, PyVal.pystr p.2)))))
         entry.room entry.app_name] ∧
    ∃ s, format_message json_dumps yaml_dump message_format allow_unicode
        (PyVal.pydict (req.post_form.map (fun p => (p.1, PyVal.pystr p.2)))) = some s := by
  rcases hfmt with hfmt | hfmt <;> subst hfmt
  · exact ⟨by simp [post_hook, hm, htok, hjson], by simp [post_hook, hm, htok, hjson],
      json_dumps (PyVal.pydict (req.post_form.map (fun p => (p.1, PyVal.pystr p.2))))
        allow_unicode,
      by simp [format_message]⟩
  · exact ⟨by simp [post_hook, hm, htok, hjson], by simp [post_hook, hm, htok, hjson],
      yaml_dump (PyVal.pydict (req.post_form.map (fun p => (p.1, PyVal.pystr p.2))))
        allow_unicode,
      by simp [format_message]⟩

/-- C6 witness: a registered token, format json, and an unparseable body:
the form-data dict is serialised by the external `json.dumps` (here a
concrete function) and the request still succeeds. -/
theorem c6_json_parse_failure_witness :
    (post_hook "json" false [("t", ⟨"!r:hs", "App"⟩)] (fun _ _ => "SERIALIZED")
        (fun _ _ => "Y")
        ⟨"t", "application/json", "not json", [("a", "b")], none, none, none, none⟩).1 =
      ⟨200, some true, none, none, none, true⟩ ∧
    (post_hook "json" false [("t", ⟨"!r:hs", "App"⟩)] (fun _ _ => "SERIALIZED")
        (fun _ _ => "Y")
        ⟨"t", "application/json", "not json", [("a", "b")], none, none, none, none⟩).2 =
      [HookOutput.logJsonDecodeError,
       HookOutput.sendMessageCall (some "SERIALIZED") "!r:hs" "App"] := by
  have h := c6_json_parse_failure_best_effort "json" false [("t", ⟨"!r:hs", "App"⟩)]
    (fun _ _ => "SERIALIZED") (fun _ _ => "Y")
    ⟨"t", "application/json", "not json", [("a", "b")], none, none, none, none⟩
    ⟨"!r:hs", "App"⟩ (by decide) rfl (Or.inl rfl) rfl
  exact ⟨h.1, h.2.1⟩


end MatrixWebhook


